import Mathlib

/-!
Shallow embedding of the anytls-go connection-admission core:
the V2board credential directory (`auth.go`), the traffic accountant
(`traffic.go`), the server identity (`myserver.go`), the connection
admitter (`server.go`) and the stream relay (`outbound_tcp.go`).

Go maps are embedded as association lists, machine `int64` as `Int`
(no overflow is relevant to the claims), byte slices as `List Nat`,
and the effectful collaborators (HTTP fetch/push, sockets, ticker)
as explicit parameters: a fetch result is an `Option (List V2User)`,
a sink push outcome is a `Bool`, and a ticker is the list of its
firings.
-/

/-- One user's pair of traffic accumulators (`userTraffic` in
traffic.go, the two `atomic.Int64` fields). -/
structure UserTraffic where
  upload : Int
  download : Int
deriving DecidableEq, Repr

/-- The counter table of `TrafficManager` (`counters map[int]*userTraffic`),
embedded as an association list keyed by user id. -/
abbrev TrafficState := List (Int × UserTraffic)

/-- One entry of the batch sent to the reporting sink
(`TrafficRecord` in client.go). -/
structure TrafficRecord where
  userID : Int
  upload : Int
  download : Int
deriving DecidableEq, Repr

/-- Whether the counter table has an entry for `userID`
(the `m.counters[userID]` existence probe in `Record`). -/
def containsId (cs : TrafficState) (userID : Int) : Bool :=
  cs.any (fun e => e.1 = userID)

/-- Add `u` to the upload and `d` to the download accumulator of the
entry keyed `userID`, if present; entries for other ids are untouched
and a missing id leaves the table unchanged (this is the shape of both
`counter.upload.Add` / `counter.download.Add` on a looked-up counter and
of the restore loop's `if counter, exists := ...; exists` guard). -/
def addAmounts (cs : TrafficState) (userID u d : Int) : TrafficState :=
  cs.map (fun e =>
    if e.1 = userID then (e.1, UserTraffic.mk (e.2.upload + u) (e.2.download + d)) else e)

/-- The double-checked counter creation in `TrafficManager.Record`:
when no counter exists for `userID` a zeroed one is inserted (the
double-check itself only avoids duplicate initialisation; its effect
is a single zeroed counter). -/
def ensureCounter (cs : TrafficState) (userID : Int) : TrafficState :=
  if containsId cs userID then cs else cs ++ [(userID, UserTraffic.mk 0 0)]

/-- `counter.upload.Add(upload)` guarded by `if upload > 0` in `Record`. -/
def recordUp (cs : TrafficState) (userID upload : Int) : TrafficState :=
  if upload > 0 then addAmounts cs userID upload 0 else cs

/-- `counter.download.Add(download)` guarded by `if download > 0` in `Record`. -/
def recordDown (cs : TrafficState) (userID download : Int) : TrafficState :=
  if download > 0 then addAmounts cs userID 0 download else cs

/-- `TrafficManager.Record` from traffic.go: early return when both
amounts are non-positive; otherwise ensure a counter exists (created
zeroed), then add the upload only when positive and the download only
when positive. -/
def Record (cs : TrafficState) (userID upload download : Int) : TrafficState :=
  if upload ≤ 0 ∧ download ≤ 0 then cs
  else recordDown (recordUp (ensureCounter cs userID) userID upload) userID download

/-- The sampling loop of `TrafficManager.push`: for each counter the
swapped-out values are kept as a batch entry when at least one is
positive (`if upload > 0 || download > 0`). -/
def collectRecords (cs : TrafficState) : List TrafficRecord :=
  cs.filterMap (fun e =>
    if e.2.upload > 0 ∨ e.2.download > 0 then some (TrafficRecord.mk e.1 e.2.upload e.2.download)
    else none)

/-- The effect of `Swap(0)` on every counter during the sampling loop:
all entries remain, zeroed. -/
def zeroAll (cs : TrafficState) : TrafficState :=
  cs.map (fun e => (e.1, UserTraffic.mk 0 0))

/-- The restore loop of `TrafficManager.push` run on sink failure: each
sampled record is added back onto the live counter for its id (skipped
when the id is no longer present, which `addAmounts` models by leaving
the table unchanged). -/
def restoreRecords (cs : TrafficState) (recs : List TrafficRecord) : TrafficState :=
  recs.foldl (fun acc r => addAmounts acc r.userID r.upload r.download) cs

/-- `TrafficManager.push` from traffic.go, with the sink outcome as an
explicit parameter: sample-and-zero every counter, return early when
the batch is empty, otherwise submit; on failure add every sampled
amount back. Returns the batch that was collected and the ending
counter table. -/
def push (cs : TrafficState) (sinkOk : Bool) : List TrafficRecord × TrafficState :=
  if (collectRecords cs).isEmpty then ([], zeroAll cs)
  else if sinkOk then (collectRecords cs, zeroAll cs)
  else (collectRecords cs, restoreRecords (zeroAll cs) (collectRecords cs))

/-- Every accumulator in the table is non-negative. -/
def NonnegState (cs : TrafficState) : Prop :=
  ∀ e ∈ cs, 0 ≤ e.2.upload ∧ 0 ≤ e.2.download

instance (cs : TrafficState) : Decidable (NonnegState cs) :=
  List.decidableBAll _ cs

/-- The table keys are pairwise distinct (a Go map cannot hold two
entries for one id). -/
def NoDupIds (cs : TrafficState) : Prop :=
  (cs.map Prod.fst).Nodup

instance (cs : TrafficState) : Decidable (NoDupIds cs) :=
  List.nodupDecidable _

/-- The operations that mutate the accountant's state. -/
inductive TrafficOp where
  | record (userID upload download : Int)
  | flush (sinkOk : Bool)

/-- Apply one accountant operation to the counter table. -/
def applyOp (cs : TrafficState) : TrafficOp → TrafficState
  | .record userID u d => Record cs userID u d
  | .flush sinkOk => (push cs sinkOk).2

/-- Run a sequence of accountant operations from the freshly
constructed manager (`NewTrafficManager`: empty counter table). -/
def runOps (ops : List TrafficOp) : TrafficState :=
  ops.foldl applyOp []

/-- A V2board user as fetched from the directory source (`User` in
client.go): numeric id, UUID secret, optional speed limit. -/
structure V2User where
  id : Int
  uuid : String
  speedLimit : Option Nat
deriving DecidableEq, Repr

/-- One entry of the in-memory user table (`userEntry` in auth.go):
the user plus the derived credential fingerprint `sha256(uuid)`,
embedded as the 32-byte list the hash function produced. -/
structure UserEntry where
  user : V2User
  passwordHash : List Nat
deriving DecidableEq, Repr

/-- The two mappings guarded by `AuthManager.mu`:
`usersByHash` keyed by the 32-byte fingerprint and `usersById` keyed
by the numeric user id. -/
structure AuthManager where
  usersByHash : List (List Nat × UserEntry)
  usersById : List (Int × UserEntry)
deriving DecidableEq, Repr

/-- Go-map read `v, ok := m[k]` on an association list: the first
entry with the key wins (well-formed tables have distinct keys). -/
def lookupKey {α β : Type} [DecidableEq α] : List (α × β) → α → Option β
  | [], _ => none
  | e :: t, k => if e.1 = k then some e.2 else lookupKey t k

/-- Go-map write `m[k] = v` on an association list: overwrite the
entry when the key is present, append otherwise. -/
def insertKey {α β : Type} [DecidableEq α] (l : List (α × β)) (k : α) (v : β) :
    List (α × β) :=
  if l.any (fun e => e.1 = k) then l.map (fun e => if e.1 = k then (k, v) else e)
  else l ++ [(k, v)]

/-- `AuthManager.CheckAuth` from auth.go: reject any input whose
length is not exactly 32 bytes, then do an exact-match lookup in
`usersByHash`; the matching user's id with `true` on a hit, `(0, false)`
otherwise. -/
def CheckAuth (m : AuthManager) (passwordHash : List Nat) : Int × Bool :=
  if passwordHash.length ≠ 32 then (0, false)
  else
    match lookupKey m.usersByHash passwordHash with
    | none => (0, false)
    | some entry => (entry.user.id, true)

/-- The table-building loop of `AuthManager.refresh`: both mappings
are built in one pass over the fetched user list, each entry holding
the user and its fingerprint `hash u.uuid` (the `sha256.Sum256` of the
UUID, embedded as an opaque hash-function parameter). -/
def buildMaps (hash : String → List Nat) (users : List V2User) :
    List (List Nat × UserEntry) × List (Int × UserEntry) :=
  users.foldl
    (fun acc u =>
      let entry : UserEntry := UserEntry.mk u (hash u.uuid)
      (insertKey acc.1 (hash u.uuid) entry, insertKey acc.2 u.id entry))
    ([], [])

/-- `AuthManager.refresh` from auth.go, with the fetch outcome as an
explicit parameter (`none` models a `GetUserList` error). On failure
the error is returned (`false`) and the mappings are untouched; on
success both freshly built mappings are installed under the single
lock acquisition. -/
def refresh (hash : String → List Nat) (m : AuthManager)
    (fetched : Option (List V2User)) : Bool × AuthManager :=
  match fetched with
  | none => (false, m)
  | some users =>
      (true, AuthManager.mk (buildMaps hash users).1 (buildMaps hash users).2)

/-- `AuthManager.Start` from auth.go: one immediate `refresh` before
the ticker is created, then one `refresh` per ticker firing. The
fetch outcomes are explicit: `firstFetch` for the immediate pass and
one element of `tickFetches` per period. Errors are logged and do not
stop the loop, so every fetch outcome is consumed. -/
def authStart (hash : String → List Nat) (m : AuthManager)
    (firstFetch : Option (List V2User))
    (tickFetches : List (Option (List V2User))) : AuthManager :=
  tickFetches.foldl (fun s f => (refresh hash s f).2) (refresh hash m firstFetch).2

/-- `TrafficManager.Start` from traffic.go: no immediate pass, just
one `push` per ticker firing, each with its sink outcome. -/
def trafficStart (cs : TrafficState) (tickResults : List Bool) : TrafficState :=
  tickResults.foldl (fun s ok => (push s ok).2) cs

/-- `myServer` from myserver.go: the static password hash (plain
mode) and the two optional V2board managers; the traffic manager is
embedded by its counter table. -/
structure MyServer where
  passwordSha256 : List Nat
  v2boardAuth : Option AuthManager
  v2boardTraffic : Option TrafficState
deriving Repr

/-- `NewMyServer`: plain password mode, no V2board managers. -/
def NewMyServer (passwordSha256 : List Nat) : MyServer :=
  MyServer.mk passwordSha256 none none

/-- `NewMyServerV2board`: V2board mode, both managers configured and
no static password hash. -/
def NewMyServerV2board (auth : AuthManager) (traffic : TrafficState) : MyServer :=
  MyServer.mk [] (some auth) (some traffic)

/-- `myServer.authenticate` from myserver.go: V2board mode delegates
to `CheckAuth`; plain mode compares the input byte-for-byte against
the stored hash after an equal-length check and always resolves user
id 0. -/
def authenticate (s : MyServer) (passwordHash : List Nat) : Int × Bool :=
  match s.v2boardAuth with
  | some auth => CheckAuth auth passwordHash
  | none =>
      if passwordHash.length = s.passwordSha256.length then
        if passwordHash = s.passwordSha256 then (0, true) else (0, false)
      else (0, false)

/-- `myServer.recordTraffic` from myserver.go: only when a traffic
manager is configured and `userID > 0` is `Record` invoked; otherwise
the server state is unchanged. -/
def recordTraffic (s : MyServer) (userID upload download : Int) : MyServer :=
  match s.v2boardTraffic with
  | some cs =>
      if userID > 0 then
        MyServer.mk s.passwordSha256 s.v2boardAuth (some (Record cs userID upload download))
      else s
  | none => s

/-- The two `io.Copy` loops of `copyBidirectional` in outbound_tcp.go,
joined before returning: each loop copies its source until EOF and its
byte count is returned, upload for client-to-remote and download for
remote-to-client. A connection is embedded by the byte sequence it
delivers before EOF. -/
def copyBidirectional (clientData remoteData : List Nat) : Int × Int :=
  ((clientData.length : Int), (remoteData.length : Int))

/-- `proxyOutboundTCP` from outbound_tcp.go: zero counts when the dial
or the handshake-success report fails, otherwise the bidirectional
copy counts. -/
def proxyOutboundTCP (dialOk handshakeOk : Bool)
    (clientData remoteData : List Nat) : Int × Int :=
  if dialOk = false then (0, 0)
  else if handshakeOk = false then (0, 0)
  else copyBidirectional clientData remoteData

/-- `proxyOutboundUoT` from outbound_tcp.go: zero counts when the UoT
request-envelope parse, the local UDP socket setup, or the
handshake-success report fails; otherwise the relay runs
`copyBidirectional` over the datagram-framed connection and returns
its counts (`clientData` is the payload byte sequence the framed
connection delivers, `remoteData` the datagram bytes received from
the UDP socket). -/
def proxyOutboundUoT (requestOk listenOk handshakeOk : Bool)
    (clientData remoteData : List Nat) : Int × Int :=
  if requestOk = false then (0, 0)
  else if listenOk = false then (0, 0)
  else if handshakeOk = false then (0, 0)
  else copyBidirectional clientData remoteData

/-- Outcome of the first-packet parse in `handleTcpConnection`
(server.go): an early close on a short fingerprint read, fallback on
authentication failure, fallback on a short padding field, or
admission carrying the resolved user id. -/
inductive AdmitOutcome where
  | fallbackShortHash
  | fallbackAuth
  | fallbackShortPadding
  | admitted (userID : Int)
deriving DecidableEq, Repr

/-- The first-packet parse of `handleTcpConnection` (server.go),
over the buffered first application-data burst: read 32 fingerprint
bytes (short read returns), authenticate (failure falls back at once),
then read the 2-byte big-endian padding length and that many padding
bytes (any shortfall falls back). The second component is the number
of buffered bytes the parse consumed before returning. -/
def admitParse (s : MyServer) (packet : List Nat) : AdmitOutcome × Nat :=
  if packet.length < 32 then (.fallbackShortHash, packet.length)
  else if (authenticate s (packet.take 32)).2 = false then (.fallbackAuth, 32)
  else
    match packet.drop 32 with
    | b0 :: b1 :: rest2 =>
        if 256 * b0 + b1 > 0 ∧ rest2.length < 256 * b0 + b1 then
          (.fallbackShortPadding, packet.length)
        else (.admitted (authenticate s (packet.take 32)).1, 32 + 2 + (256 * b0 + b1))
    | _ => (.fallbackShortPadding, packet.length)

/-- One logical stream's inputs to the per-stream callback: whether
the destination parsed, whether it matched the UoT sentinel, the relay
collaborator outcomes, and the two payload byte sequences. -/
structure StreamInput where
  destOk : Bool
  isUoT : Bool
  requestOk : Bool
  dialOk : Bool
  listenOk : Bool
  handshakeOk : Bool
  clientData : List Nat
  remoteData : List Nat
deriving Repr

/-- The per-stream callback of `handleTcpConnection`: a failed
destination parse closes the stream without relaying or recording;
otherwise dispatch on the UoT sentinel, relay, and report the
resulting counts to `recordTraffic` keyed by `userID`. -/
def handleStream (s : MyServer) (userID : Int) (st : StreamInput) : MyServer :=
  if st.destOk = false then s
  else
    let result :=
      if st.isUoT then
        proxyOutboundUoT st.requestOk st.listenOk st.handshakeOk st.clientData st.remoteData
      else proxyOutboundTCP st.dialOk st.handshakeOk st.clientData st.remoteData
    recordTraffic s userID result.1 result.2

/-- `handleTcpConnection` from server.go after the TLS wrap: parse the
first packet; on any non-admission outcome the connection ends with no
stream ever relayed; on admission the resolved user id is captured
once and every stream the session opens runs the per-stream callback
with that id. -/
def handleTcpConnection (s : MyServer) (packet : List Nat)
    (streams : List StreamInput) : MyServer :=
  match (admitParse s packet).1 with
  | .admitted userID => streams.foldl (fun srv st => handleStream srv userID st) s
  | _ => s

/-! ### Lemmas about the traffic accountant -/

theorem addAmounts_cons (e : Int × UserTraffic) (cs : TrafficState) (userID u d : Int) :
    addAmounts (e :: cs) userID u d
      = (if e.1 = userID then (e.1, UserTraffic.mk (e.2.upload + u) (e.2.download + d))
         else e) :: addAmounts cs userID u d := rfl

theorem addAmounts_not_mem (cs : TrafficState) (userID u d : Int)
    (h : userID ∉ cs.map Prod.fst) : addAmounts cs userID u d = cs := by
  induction cs with
  | nil => rfl
  | cons e t ih =>
      simp only [List.map_cons, List.mem_cons, not_or] at h
      rw [addAmounts_cons, if_neg (fun he => h.1 he.symm), ih h.2]

theorem restoreRecords_cons (cs : TrafficState) (r : TrafficRecord)
    (recs : List TrafficRecord) :
    restoreRecords cs (r :: recs)
      = restoreRecords (addAmounts cs r.userID r.upload r.download) recs := rfl

theorem restoreRecords_cons_entry (e : Int × UserTraffic) (cs : TrafficState)
    (recs : List TrafficRecord) :
    restoreRecords (e :: cs) recs
      = recs.foldl
          (fun x r =>
            if x.1 = r.userID then
              (x.1, UserTraffic.mk (x.2.upload + r.upload) (x.2.download + r.download))
            else x) e
        :: restoreRecords cs recs := by
  induction recs generalizing e cs with
  | nil => rfl
  | cons r rs ih =>
      rw [restoreRecords_cons, addAmounts_cons, ih, List.foldl_cons, restoreRecords_cons]

theorem foldl_restore_entry_not_mem (e : Int × UserTraffic) (recs : List TrafficRecord)
    (h : ∀ r ∈ recs, r.userID ≠ e.1) :
    recs.foldl
        (fun x r =>
          if x.1 = r.userID then
            (x.1, UserTraffic.mk (x.2.upload + r.upload) (x.2.download + r.download))
          else x) e
      = e := by
  induction recs generalizing e with
  | nil => rfl
  | cons r rs ih =>
      rw [List.foldl_cons, if_neg (fun hx => h r (List.mem_cons_self _ _) hx.symm)]
      exact ih e (fun x hx => h x (List.mem_cons_of_mem _ hx))

theorem collectRecords_ids_subset (cs : TrafficState) :
    ∀ r ∈ collectRecords cs, r.userID ∈ cs.map Prod.fst := by
  intro r hr
  simp only [collectRecords, List.mem_filterMap] at hr
  obtain ⟨e, he, hfe⟩ := hr
  by_cases hcond : e.2.upload > 0 ∨ e.2.download > 0
  · rw [if_pos hcond] at hfe
    cases hfe
    exact List.mem_map.mpr ⟨e, he, rfl⟩
  · rw [if_neg hcond] at hfe
    cases hfe

theorem zeroAll_cons (e : Int × UserTraffic) (cs : TrafficState) :
    zeroAll (e :: cs) = (e.1, UserTraffic.mk 0 0) :: zeroAll cs := rfl

theorem zeroAll_ids (cs : TrafficState) :
    (zeroAll cs).map Prod.fst = cs.map Prod.fst := by
  induction cs with
  | nil => rfl
  | cons e t ih => rw [zeroAll_cons, List.map_cons, List.map_cons, ih]

theorem zeroAll_of_all_zero (cs : TrafficState)
    (h : ∀ e ∈ cs, e.2 = UserTraffic.mk 0 0) : zeroAll cs = cs := by
  induction cs with
  | nil => rfl
  | cons e t ih =>
      rw [zeroAll_cons, ih (fun x hx => h x (List.mem_cons_of_mem _ hx))]
      have he := h e (List.mem_cons_self _ _)
      rw [← he]

theorem restore_collect_eq (cs : TrafficState) (hn : NonnegState cs)
    (hd : NoDupIds cs) :
    restoreRecords (zeroAll cs) (collectRecords cs) = cs := by
  induction cs with
  | nil => rfl
  | cons e t ih =>
      have hne := hn e (List.mem_cons_self _ _)
      have hnt : NonnegState t := fun x hx => hn x (List.mem_cons_of_mem _ hx)
      have hd' : e.1 ∉ t.map Prod.fst ∧ NoDupIds t := by
        simpa [NoDupIds, List.map_cons, List.nodup_cons] using hd
      have hnotin : ∀ r ∈ collectRecords t, r.userID ≠ e.1 :=
        fun r hr hrid => hd'.1 (hrid ▸ collectRecords_ids_subset t r hr)
      by_cases hcond : e.2.upload > 0 ∨ e.2.download > 0
      · have hcollect : collectRecords (e :: t)
            = TrafficRecord.mk e.1 e.2.upload e.2.download :: collectRecords t := by
          simp only [collectRecords, List.filterMap_cons, if_pos hcond]
        rw [hcollect, zeroAll_cons, restoreRecords_cons, addAmounts_cons, if_pos rfl,
          addAmounts_not_mem (zeroAll t) e.1 _ _ (by rw [zeroAll_ids]; exact hd'.1),
          restoreRecords_cons_entry]
        dsimp only
        simp only [zero_add]
        have hnotin' : ∀ r ∈ collectRecords t,
            r.userID ≠ (e.1, UserTraffic.mk e.2.upload e.2.download).1 := hnotin
        rw [foldl_restore_entry_not_mem (e.1, UserTraffic.mk e.2.upload e.2.download)
          (collectRecords t) hnotin', ih hnt hd'.2]
      · push_neg at hcond
        have h2 : e.2 = UserTraffic.mk 0 0 := by
          have heta : e.2 = UserTraffic.mk e.2.upload e.2.download := rfl
          rw [heta, le_antisymm hcond.1 hne.1, le_antisymm hcond.2 hne.2]
        have hcollect : collectRecords (e :: t) = collectRecords t := by
          simp only [collectRecords, List.filterMap_cons]
          rw [if_neg (by push_neg; exact hcond)]
        rw [hcollect, zeroAll_cons, restoreRecords_cons_entry]
        have hnotin' : ∀ r ∈ collectRecords t,
            r.userID ≠ (e.1, UserTraffic.mk 0 0).1 := hnotin
        rw [foldl_restore_entry_not_mem (e.1, UserTraffic.mk 0 0)
          (collectRecords t) hnotin', ih hnt hd'.2, ← h2]

theorem collectRecords_empty_all_zero (cs : TrafficState)
    (hn : NonnegState cs) (h : (collectRecords cs).isEmpty = true) :
    ∀ e ∈ cs, e.2 = UserTraffic.mk 0 0 := by
  intro e he
  have hnone := (List.filterMap_eq_nil_iff.mp (List.isEmpty_iff.mp h)) e he
  by_cases hcond : e.2.upload > 0 ∨ e.2.download > 0
  · rw [if_pos hcond] at hnone; cases hnone
  · push_neg at hcond
    have hne := hn e he
    have heta : e.2 = UserTraffic.mk e.2.upload e.2.download := rfl
    rw [heta, le_antisymm hcond.1 hne.1, le_antisymm hcond.2 hne.2]

theorem push_fail_preserves (cs : TrafficState) (hn : NonnegState cs)
    (hd : NoDupIds cs) : (push cs false).2 = cs := by
  unfold push
  by_cases hrec : (collectRecords cs).isEmpty
  · rw [if_pos hrec]
    exact zeroAll_of_all_zero cs (collectRecords_empty_all_zero cs hn hrec)
  · rw [if_neg hrec, if_neg (by simp)]
    exact restore_collect_eq cs hn hd

theorem NonnegState_nil : NonnegState [] := by
  intro e he
  cases he

theorem nonneg_addAmounts (cs : TrafficState) (userID u d : Int)
    (hu : 0 ≤ u) (hd : 0 ≤ d) (h : NonnegState cs) :
    NonnegState (addAmounts cs userID u d) := by
  intro e he
  simp only [addAmounts, List.mem_map] at he
  obtain ⟨a, ha, hfe⟩ := he
  by_cases hid : a.1 = userID
  · rw [if_pos hid] at hfe
    cases hfe
    exact ⟨add_nonneg (h a ha).1 hu, add_nonneg (h a ha).2 hd⟩
  · rw [if_neg hid] at hfe
    exact hfe ▸ h a ha

theorem nonneg_ensureCounter (cs : TrafficState) (userID : Int)
    (h : NonnegState cs) : NonnegState (ensureCounter cs userID) := by
  unfold ensureCounter
  split
  · exact h
  · intro e he
    rcases List.mem_append.mp he with he | he
    · exact h e he
    · rw [List.mem_singleton.mp he]
      exact ⟨le_refl 0, le_refl 0⟩

theorem nonneg_recordUp (cs : TrafficState) (userID upload : Int)
    (h : NonnegState cs) : NonnegState (recordUp cs userID upload) := by
  unfold recordUp
  split
  · exact nonneg_addAmounts cs userID upload 0 (le_of_lt (by assumption)) le_rfl h
  · exact h

theorem nonneg_recordDown (cs : TrafficState) (userID download : Int)
    (h : NonnegState cs) : NonnegState (recordDown cs userID download) := by
  unfold recordDown
  split
  · exact nonneg_addAmounts cs userID 0 download le_rfl (le_of_lt (by assumption)) h
  · exact h

theorem nonneg_Record (cs : TrafficState) (userID upload download : Int)
    (h : NonnegState cs) : NonnegState (Record cs userID upload download) := by
  unfold Record
  split
  · exact h
  · exact nonneg_recordDown _ _ _ (nonneg_recordUp _ _ _ (nonneg_ensureCounter _ _ h))

theorem nonneg_zeroAll (cs : TrafficState) : NonnegState (zeroAll cs) := by
  intro e he
  simp only [zeroAll, List.mem_map] at he
  obtain ⟨a, _, hfe⟩ := he
  cases hfe
  exact ⟨le_refl 0, le_refl 0⟩

theorem collect_nonneg (cs : TrafficState) (h : NonnegState cs) :
    ∀ r ∈ collectRecords cs, 0 ≤ r.upload ∧ 0 ≤ r.download := by
  intro r hr
  simp only [collectRecords, List.mem_filterMap] at hr
  obtain ⟨e, he, hfe⟩ := hr
  by_cases hcond : e.2.upload > 0 ∨ e.2.download > 0
  · rw [if_pos hcond] at hfe
    cases hfe
    exact h e he
  · rw [if_neg hcond] at hfe
    cases hfe

theorem nonneg_restoreRecords (recs : List TrafficRecord) (cs : TrafficState)
    (hr : ∀ r ∈ recs, 0 ≤ r.upload ∧ 0 ≤ r.download) (h : NonnegState cs) :
    NonnegState (restoreRecords cs recs) := by
  induction recs generalizing cs with
  | nil => exact h
  | cons r rs ih =>
      rw [restoreRecords_cons]
      exact ih _ (fun x hx => hr x (List.mem_cons_of_mem _ hx))
        (nonneg_addAmounts cs r.userID r.upload r.download
          (hr r (List.mem_cons_self _ _)).1 (hr r (List.mem_cons_self _ _)).2 h)

theorem nonneg_push (cs : TrafficState) (sinkOk : Bool) (h : NonnegState cs) :
    NonnegState (push cs sinkOk).2 := by
  unfold push
  split
  · exact nonneg_zeroAll cs
  · split
    · exact nonneg_zeroAll cs
    · exact nonneg_restoreRecords _ _ (collect_nonneg cs h) (nonneg_zeroAll cs)

theorem nonneg_applyOp (cs : TrafficState) (op : TrafficOp) (h : NonnegState cs) :
    NonnegState (applyOp cs op) := by
  cases op with
  | record userID u d => exact nonneg_Record cs userID u d h
  | flush sinkOk => exact nonneg_push cs sinkOk h

theorem nonneg_foldl_applyOp (ops : List TrafficOp) :
    ∀ cs : TrafficState, NonnegState cs → NonnegState (ops.foldl applyOp cs) := by
  induction ops with
  | nil => exact fun cs h => h
  | cons op rest ih =>
      intro cs h
      rw [List.foldl_cons]
      exact ih _ (nonneg_applyOp cs op h)

/-! ### Lemmas about the credential directory and the server -/

theorem lookupKey_of_mem {α β : Type} [DecidableEq α] (l : List (α × β)) (k : α) (v : β)
    (hnd : (l.map Prod.fst).Nodup) (hmem : (k, v) ∈ l) : lookupKey l k = some v := by
  induction l with
  | nil => cases hmem
  | cons e t ih =>
      simp only [List.map_cons, List.nodup_cons] at hnd
      rcases List.mem_cons.mp hmem with heq | hmem'
      · rw [← heq]
        simp [lookupKey]
      · have hkey : e.1 ≠ k := by
          intro hk
          exact hnd.1 (hk ▸ List.mem_map.mpr ⟨(k, v), hmem', rfl⟩)
        rw [lookupKey, if_neg hkey]
        exact ih hnd.2 hmem'

theorem lookupKey_of_not_mem {α β : Type} [DecidableEq α] (l : List (α × β)) (k : α)
    (h : k ∉ l.map Prod.fst) : lookupKey l k = none := by
  induction l with
  | nil => rfl
  | cons e t ih =>
      simp only [List.map_cons, List.mem_cons, not_or] at h
      rw [lookupKey, if_neg (fun he => h.1 he.symm)]
      exact ih h.2

theorem handleStream_no_traffic (p : List Nat) (a : Option AuthManager)
    (userID : Int) (st : StreamInput) :
    handleStream (MyServer.mk p a none) userID st = MyServer.mk p a none := by
  unfold handleStream
  split
  · rfl
  · rfl

theorem foldl_handleStream_no_traffic (streams : List StreamInput)
    (p : List Nat) (a : Option AuthManager) (userID : Int) :
    streams.foldl (fun srv st => handleStream srv userID st) (MyServer.mk p a none)
      = MyServer.mk p a none := by
  induction streams with
  | nil => rfl
  | cons st rest ih => rw [List.foldl_cons, handleStream_no_traffic, ih]

/-! ### Claim theorems -/

/-- C1: when a flush samples the per-user counters (take-and-zero)
and the sink push fails, every sampled amount is added back onto the
live counter, so a failing flush leaves the counter table exactly as
it was; in particular, after a failed flush of user 7 with sampled
(upload=100, download=50), a `record(7,10,0)` followed by a successful
flush produces the batch entry (id=7, upload=110, download=50). -/
theorem push_failure_restores_counters :
    (∀ cs : TrafficState, NonnegState cs → NoDupIds cs → (push cs false).2 = cs)
    ∧ (push (Record (push [(7, UserTraffic.mk 100 50)] false).2 7 10 0) true).1
        = [TrafficRecord.mk 7 110 50] :=
  ⟨push_fail_preserves, by decide⟩

/-- Witness for C1: the general restore property applied to the
one-user table of Scenario C. -/
theorem push_failure_restores_counters_witness :
    NonnegState [(7, UserTraffic.mk 100 50)]
    ∧ NoDupIds [(7, UserTraffic.mk 100 50)]
    ∧ (push [(7, UserTraffic.mk 100 50)] false).2 = [(7, UserTraffic.mk 100 50)] :=
  ⟨by decide, by decide,
    push_failure_restores_counters.1 [(7, UserTraffic.mk 100 50)] (by decide) (by decide)⟩

/-- C2 counterexample: a UDP-over-TCP relay invocation that proceeds
past envelope parsing (and whose socket setup and handshake report
succeed) with three payload bytes from the client does NOT report
zero byte counts — `proxyOutboundUoT` returns the bidirectional-copy
counts, here (3, 0). -/
theorem uot_relay_zero_report_counterexample :
    proxyOutboundUoT true true true [1, 2, 3] [] ≠ (0, 0) := by decide

/-- C2 (amended): a UoT relay invocation that proceeds past envelope
parsing, socket setup and the handshake report returns the byte
counts measured by the bidirectional copy over the datagram-framed
connection (the payload byte totals of each direction), not zero;
an invocation failing envelope parsing returns (0, 0). -/
theorem uot_relay_reports_copied_bytes :
    (∀ clientData remoteData : List Nat,
        proxyOutboundUoT true true true clientData remoteData
          = ((clientData.length : Int), (remoteData.length : Int)))
    ∧ (∀ (listenOk handshakeOk : Bool) (c r : List Nat),
        proxyOutboundUoT false listenOk handshakeOk c r = (0, 0)) :=
  ⟨fun _ _ => rfl, fun _ _ _ _ => rfl⟩

/-- C3: fingerprint lookup against the current snapshot: a 32-byte
input stored for some user returns that user's id with found=true; a
32-byte input absent from the table returns not-found; any input of a
different length returns not-found without faulting. -/
theorem checkAuth_fingerprint_lookup :
    (∀ (m : AuthManager) (k : List Nat) (e : UserEntry),
        k.length = 32 → (m.usersByHash.map Prod.fst).Nodup →
        (k, e) ∈ m.usersByHash → CheckAuth m k = (e.user.id, true))
    ∧ (∀ (m : AuthManager) (k : List Nat),
        k.length = 32 → k ∉ m.usersByHash.map Prod.fst →
        CheckAuth m k = (0, false))
    ∧ (∀ (m : AuthManager) (k : List Nat),
        k.length ≠ 32 → CheckAuth m k = (0, false)) := by
  refine ⟨?_, ?_, ?_⟩
  · intro m k e hlen hnd hmem
    unfold CheckAuth
    rw [if_neg (by rw [hlen]; exact fun h => h rfl), lookupKey_of_mem _ _ _ hnd hmem]
  · intro m k hlen habs
    unfold CheckAuth
    rw [if_neg (by rw [hlen]; exact fun h => h rfl), lookupKey_of_not_mem _ _ habs]
  · intro m k hlen
    unfold CheckAuth
    rw [if_pos hlen]

/-- Witness for C3: a one-user snapshot, looked up with the stored
fingerprint, an absent 32-byte value and a 31-byte value. -/
theorem checkAuth_fingerprint_lookup_witness :
    CheckAuth
        (AuthManager.mk
          [(List.replicate 32 9, UserEntry.mk (V2User.mk 7 "u" none) (List.replicate 32 9))]
          [])
        (List.replicate 32 9) = (7, true)
    ∧ CheckAuth
        (AuthManager.mk
          [(List.replicate 32 9, UserEntry.mk (V2User.mk 7 "u" none) (List.replicate 32 9))]
          [])
        (List.replicate 32 8) = (0, false)
    ∧ CheckAuth
        (AuthManager.mk
          [(List.replicate 32 9, UserEntry.mk (V2User.mk 7 "u" none) (List.replicate 32 9))]
          [])
        (List.replicate 31 9) = (0, false) :=
  ⟨checkAuth_fingerprint_lookup.1 _ _ _ (by simp) (by simp)
      (List.mem_singleton.mpr rfl),
    checkAuth_fingerprint_lookup.2.1 _ _ (by simp) (by decide),
    checkAuth_fingerprint_lookup.2.2 _ _ (by decide)⟩

/-- C4: a failed fetch makes `refresh` surface the error and leave
both mappings exactly as they were; a successful `refresh` installs a
snapshot built from scratch from the fetched list alone — the result
does not depend on the prior state in any way — and reports success. -/
theorem refresh_failure_frame_and_rebuild :
    (∀ (hash : String → List Nat) (m : AuthManager),
        refresh hash m none = (false, m))
    ∧ (∀ (hash : String → List Nat) (m m' : AuthManager) (users : List V2User),
        (refresh hash m (some users)).2 = (refresh hash m' (some users)).2)
    ∧ (∀ (hash : String → List Nat) (m : AuthManager) (users : List V2User),
        (refresh hash m (some users)).2
          = AuthManager.mk (buildMaps hash users).1 (buildMaps hash users).2
        ∧ (refresh hash m (some users)).1 = true) :=
  ⟨fun _ _ => rfl, fun _ _ _ _ => rfl, fun _ _ _ => ⟨rfl, rfl⟩⟩

/-- C5: `Record` with both amounts non-positive leaves the counter
table completely unchanged — no counter is created, none is modified —
and hence a later flush collects exactly the batch it would have
collected anyway. -/
theorem record_nonpositive_noop :
    ∀ (cs : TrafficState) (userID upload download : Int) (sinkOk : Bool),
      upload ≤ 0 → download ≤ 0 →
      Record cs userID upload download = cs
      ∧ containsId (Record cs userID upload download) userID = containsId cs userID
      ∧ (push (Record cs userID upload download) sinkOk).1 = (push cs sinkOk).1 := by
  intro cs userID u d sinkOk hu hd
  have h : Record cs userID u d = cs := by
    unfold Record
    rw [if_pos ⟨hu, hd⟩]
  exact ⟨h, by rw [h], by rw [h]⟩

/-- Witness for C5: recording (0, -3) for an unseen id changes
nothing. -/
theorem record_nonpositive_noop_witness :
    Record [(1, UserTraffic.mk 5 5)] 2 0 (-3) = [(1, UserTraffic.mk 5 5)]
    ∧ containsId (Record [(1, UserTraffic.mk 5 5)] 2 0 (-3)) 2
        = containsId [(1, UserTraffic.mk 5 5)] 2
    ∧ (push (Record [(1, UserTraffic.mk 5 5)] 2 0 (-3)) true).1
        = (push [(1, UserTraffic.mk 5 5)] true).1 :=
  record_nonpositive_noop [(1, UserTraffic.mk 5 5)] 2 0 (-3) true (by decide) (by decide)

/-- C6: a connection whose 32-byte fingerprint fails authentication
transitions to the fallback path immediately: the parse consumes
exactly the 32 fingerprint bytes, so the 2-byte padding length and
the padding bytes are never read. -/
theorem auth_failure_stops_parsing :
    ∀ (s : MyServer) (packet : List Nat),
      32 ≤ packet.length →
      (authenticate s (packet.take 32)).2 = false →
      admitParse s packet = (.fallbackAuth, 32) := by
  intro s packet hlen hauth
  unfold admitParse
  rw [if_neg (Nat.not_lt.mpr hlen), if_pos hauth]

/-- Witness for C6: a plain-mode server and a 34-byte first packet
whose fingerprint does not match. -/
theorem auth_failure_stops_parsing_witness :
    32 ≤ (List.replicate 34 0).length
    ∧ admitParse (NewMyServer (List.replicate 32 1)) (List.replicate 34 0)
        = (.fallbackAuth, 32) :=
  ⟨by decide,
    auth_failure_stops_parsing (NewMyServer (List.replicate 32 1))
      (List.replicate 34 0) (by decide) (by decide)⟩

/-- C7: the directory refresh loop performs one refresh immediately,
before its first period (zero ticker firings still apply one
`refresh`), while the traffic flush loop performs no flush before its
first period (zero ticker firings leave the counters untouched, and
the first push happens only at the first firing). -/
theorem startup_refresh_immediate_flush_deferred :
    (∀ (hash : String → List Nat) (m : AuthManager) (f : Option (List V2User)),
        authStart hash m f [] = (refresh hash m f).2)
    ∧ (∀ cs : TrafficState, trafficStart cs [] = cs)
    ∧ (∀ (cs : TrafficState) (ok : Bool) (oks : List Bool),
        trafficStart cs (ok :: oks) = trafficStart (push cs ok).2 oks)
    ∧ (∀ (hash : String → List Nat) (m : AuthManager) (f g : Option (List V2User))
        (fs : List (Option (List V2User))),
        authStart hash m f (g :: fs) = authStart hash (refresh hash m f).2 g fs) :=
  ⟨fun _ _ _ => rfl, fun _ => rfl, fun _ _ _ => rfl, fun _ _ _ _ _ => rfl⟩

/-- C8: every upload and download counter is non-negative in every
state reachable from the fresh accountant by any sequence of record
and flush operations. -/
theorem counters_nonneg_invariant :
    ∀ ops : List TrafficOp, NonnegState (runOps ops) := by
  intro ops
  exact nonneg_foldl_applyOp ops [] NonnegState_nil

/-- C9: on an admitted connection the per-stream relay results are
reported to `recordTraffic` keyed by exactly the user id that
authentication resolved for the connection's 32-byte fingerprint. -/
theorem stream_traffic_keyed_by_auth_id :
    ∀ (s : MyServer) (packet : List Nat) (streams : List StreamInput) (userID : Int),
      (admitParse s packet).1 = .admitted userID →
      userID = (authenticate s (packet.take 32)).1
      ∧ handleTcpConnection s packet streams
        = streams.foldl
            (fun srv st => handleStream srv (authenticate s (packet.take 32)).1 st) s := by
  intro s packet streams userID h
  have hid : userID = (authenticate s (packet.take 32)).1 := by
    unfold admitParse at h
    split at h
    · simp at h
    · split at h
      · simp at h
      · split at h
        · split at h
          · simp at h
          · simp only [AdmitOutcome.admitted.injEq] at h
            exact h.symm
        · simp at h
  constructor
  · exact hid
  · unfold handleTcpConnection
    rw [h, hid]

/-- Witness for C9: a plain-mode server admitting a packet made of
the correct fingerprint and a zero padding length. -/
theorem stream_traffic_keyed_by_auth_id_witness :
    (0 : Int)
        = (authenticate (NewMyServer (List.replicate 32 5))
            ((List.replicate 32 5 ++ [0, 0]).take 32)).1
    ∧ handleTcpConnection (NewMyServer (List.replicate 32 5))
          (List.replicate 32 5 ++ [0, 0]) []
        = List.foldl
            (fun srv st =>
              handleStream srv
                (authenticate (NewMyServer (List.replicate 32 5))
                  ((List.replicate 32 5 ++ [0, 0]).take 32)).1 st)
            (NewMyServer (List.replicate 32 5)) [] :=
  stream_traffic_keyed_by_auth_id (NewMyServer (List.replicate 32 5))
    (List.replicate 32 5 ++ [0, 0]) [] 0 (by decide)

/-- C10: `recordTraffic` is a no-op when the user id is not positive
or when no traffic manager is configured; plain static-secret
authentication always resolves user id 0, and a plain-mode server is
left completely unchanged by any connection it handles — no traffic
is ever recorded in static-secret mode. -/
theorem recordTraffic_noop_conditions :
    (∀ (s : MyServer) (userID upload download : Int),
        userID ≤ 0 → recordTraffic s userID upload download = s)
    ∧ (∀ (s : MyServer) (userID upload download : Int),
        s.v2boardTraffic = none → recordTraffic s userID upload download = s)
    ∧ (∀ (pwd h : List Nat), (authenticate (NewMyServer pwd) h).1 = 0)
    ∧ (∀ (pwd packet : List Nat) (streams : List StreamInput),
        handleTcpConnection (NewMyServer pwd) packet streams = NewMyServer pwd) := by
  refine ⟨?_, ?_, ?_, ?_⟩
  · intro s userID u d hle
    unfold recordTraffic
    split
    · rw [if_neg (not_lt.mpr hle)]
    · rfl
  · intro s userID u d hnone
    obtain ⟨p, a, t⟩ := s
    simp only at hnone
    rw [hnone]
    rfl
  · intro pwd h
    unfold authenticate NewMyServer
    simp only
    split_ifs <;> rfl
  · intro pwd packet streams
    unfold handleTcpConnection
    split
    · exact foldl_handleStream_no_traffic streams pwd none _
    · rfl

/-- Witness for C10: a non-positive id and a plain-mode server. -/
theorem recordTraffic_noop_conditions_witness :
    recordTraffic (NewMyServerV2board (AuthManager.mk [] []) [(3, UserTraffic.mk 1 1)])
        0 5 5
      = NewMyServerV2board (AuthManager.mk [] []) [(3, UserTraffic.mk 1 1)]
    ∧ recordTraffic (NewMyServer [9]) 4 5 5 = NewMyServer [9] :=
  ⟨recordTraffic_noop_conditions.1 _ 0 5 5 (by decide),
    recordTraffic_noop_conditions.2.1 _ 4 5 5 rfl⟩
